import Mathlib

/-!
Verification development for `scripts/setup_issue_label.py` of the
repository `seyLu/setup-github-label-cli`.

The script synchronizes GitHub issue labels with a YAML/JSON config:
it fetches the remote label list (paginated), loads desired labels from
the `labels` directory, deletes a fixed list of default labels, and then
creates or updates labels keyed by name.

The embedding below is a direct translation of the Python source:
  * Python dicts holding desired labels become insertion-ordered
    association lists over a finite key type (`LabelDict`), because the
    source mutates these dicts (`label["new_name"] = label.pop("name")`).
  * Remote labels become the structure `GhLabel`, since the source builds
    them with exactly the keys `name`, `color`, `description` and never
    mutates them.
  * HTTP calls become an explicit request trace (`Req`); the remote server
    is a function from page number to an optional page (`none` models a
    non-200 response).  Responses to mutation requests (create / update /
    delete) are only ever logged by the source and never influence control
    flow, so they do not appear in the embedding.
  * `sys.exit` on a fatal condition becomes an `Except`/`Option` error
    (`Fatal`).
  * The constants `LabelFile.YAML` / `LabelFile.JSON` are built from
    `os.path.dirname(__file__)` at runtime; they are passed as parameters
    `yamlPath` / `jsonPath`.  Theorems instantiate them with the value most
    charitable to the code, `"labels/labels.yaml"` / `"labels/labels.json"`
    (the value under which the canonical config file is actually parsed).
-/

/-- Keys that ever occur in a desired-label dict in the source:
the loader builds `{name, color, description}` and `_update_label`
adds `new_name`. -/
inductive LKey where
  | name
  | color
  | description
  | new_name
deriving DecidableEq, Repr

/-- A Python dict holding a desired label: an insertion-ordered association
list (keys are unique in every dict the program builds). -/
def LabelDict := List (LKey × String)
deriving DecidableEq, Repr

/-- Python `d.get(k)` / `d[k]`: value at the first occurrence of `k`. -/
def dget : LabelDict → LKey → Option String
  | [], _ => none
  | (k', v) :: rest, k => if k' = k then some v else dget rest k

/-- Python `d.pop(k)`: remove key `k`, returning its value; `none` models
the `KeyError` raised when `k` is absent. -/
def dpop : LabelDict → LKey → Option (String × LabelDict)
  | [], _ => none
  | (k', v) :: rest, k =>
    if k' = k then some (v, rest)
    else (dpop rest k).map (fun p => (p.1, (k', v) :: p.2))

/-- Python `d[k] = v`: replace in place if the key exists, else append
(Python dicts keep insertion order). -/
def dset : LabelDict → LKey → String → LabelDict
  | [], k, v => [(k, v)]
  | (k', v') :: rest, k, v =>
    if k' = k then (k, v) :: rest else (k', v') :: dset rest k v

/-- The dict `{"name": n, "color": c, "description": d}` built by the
loader for every accepted record (source lines 183-189). -/
def mkLabelDict (n c d : String) : LabelDict :=
  [(.name, n), (.color, c), (.description, d)]

/-- A remote label as built by `_fetch_github_labels` (source lines
125-132): exactly the keys `name`, `color`, `description`, never mutated
afterwards. -/
structure GhLabel where
  name : String
  color : String
  description : String
deriving DecidableEq, Repr

/-- A label object as returned by the GitHub list endpoint: it carries the
three fields the source keeps plus further fields (`id`, `node_id`, ...)
that `_fetch_github_labels` drops. -/
structure ApiLabel where
  id : Nat
  node_id : String
  name : String
  color : String
  description : String
deriving DecidableEq, Repr

/-- The reduction `{name, color, description}` applied to every fetched
label (source lines 125-132). -/
def reduceApiLabel (g : ApiLabel) : GhLabel :=
  ⟨g.name, g.color, g.description⟩

/-- One raw record of a parsed YAML/JSON config file: each of the three
fields the source reads may be absent. -/
structure RawRecord where
  name : Option String
  color : Option String
  description : Option String
deriving DecidableEq, Repr

/-- A directory entry of the `labels` directory together with the records
its file parses to. -/
structure ConfigFile where
  filename : String
  records : List RawRecord
deriving DecidableEq, Repr

/-- An HTTP request issued by the script. -/
inductive Req where
  /-- `GET {url}?page={page}&per_page={perPage}` -/
  | list (page perPage : Nat)
  /-- `POST {url}` with JSON body `body` -/
  | create (body : LabelDict)
  /-- `PATCH {url}/{name}` with JSON body `body` -/
  | update (name : String) (body : LabelDict)
  /-- `DELETE {url}/{name}` -/
  | delete (name : String)
deriving DecidableEq, Repr

/-- A fatal condition on which the source calls `sys.exit`, plus the two
model artifacts `fuelExhausted` (the unbounded pagination loop is run on
fuel) and `keyError` (a dict access the source would crash on). -/
inductive Fatal where
  | fetchFailed (page : Nat)
  | fuelExhausted
  | configNotFound
  | invalidLabelEntry (file : String) (index : Nat) (color description : Option String)
  | keyError
deriving DecidableEq, Repr

/-- Python `s.endswith(suffix)`. -/
def pyEndsWith (s suf : String) : Bool :=
  suf.data.isSuffixOf s.data

/-- Python `s.startswith(pre)`. -/
def pyStartsWith (s pre : String) : Bool :=
  pre.data.isPrefixOf s.data

/-- Python `s.replace("#", "")`: every occurrence of `'#'` is removed. -/
def replaceHash (s : String) : String :=
  ⟨s.data.filter (fun c => c ≠ '#')⟩

/-- Python `os.path.join(a, b)` for the relative, slash-free components the
script joins. -/
def pathJoin (a b : String) : String :=
  if a = "" then b else a ++ "/" ++ b

/-- The filter selecting YAML config files (source lines 141-146):
ends with `".yaml"` and does not start with `"_remove"`. -/
def yamlSel (f : String) : Bool :=
  pyEndsWith f ".yaml" && !pyStartsWith f "_remove"

/-- The filter selecting JSON config files (source lines 147-152). -/
def jsonSel (f : String) : Bool :=
  pyEndsWith f ".json" && !pyStartsWith f "_remove"

/-- Source lines 154-164: use the non-`_remove` `.yaml` files if there are
any, else the non-`_remove` `.json` files, else exit with
"No Yaml or JSON config file for labels." -/
def select_label_files (dir : List ConfigFile) : Except Fatal (List ConfigFile) :=
  let yaml_filenames := dir.filter (fun f => yamlSel f.filename)
  let json_filenames := dir.filter (fun f => jsonSel f.filename)
  if !yaml_filenames.isEmpty then .ok yaml_filenames
  else if !json_filenames.isEmpty then .ok json_filenames
  else .error .configNotFound

/-- The dict appended for an accepted record (source lines 183-189):
`{"name": label["name"], "color": label.get("color", "").replace("#", ""),
"description": label.get("description", "")}`. -/
def normalizeRecord (r : RawRecord) : LabelDict :=
  mkLabelDict (r.name.getD "") (replaceHash (r.color.getD "")) (r.description.getD "")

/-- Source lines 176-189: walk the records of the currently loaded file
with a 1-based index; a record whose `name` is absent or empty (Python
falsiness of `label.get("name")`) exits fatally, reporting file, index,
`label.get('color')` and `label.get('description')`; every other record is
normalized and appended. -/
def normalizeRecords (fname : String) : Nat → List RawRecord → Except Fatal (List LabelDict)
  | _, [] => .ok []
  | i, r :: rs =>
    if r.name.getD "" = "" then
      .error (.invalidLabelEntry fname i r.color r.description)
    else
      (normalizeRecords fname (i + 1) rs).map (fun tail => normalizeRecord r :: tail)

/-- Source lines 166-191: iterate over the selected files.  `use_labels`
is assigned only when the joined path `labels/<filename>` equals the
constant `LabelFile.YAML` (`yamlPath`) or `LabelFile.JSON` (`jsonPath`);
otherwise it keeps its previous value (initially `[]`), and that stale
record list is validated and appended again. -/
def processFiles (yamlPath jsonPath : String) :
    List ConfigFile → List RawRecord → Except Fatal (List LabelDict)
  | [], _ => .ok []
  | f :: rest, use_labels =>
    let use2 :=
      if pathJoin "labels" f.filename = yamlPath then f.records
      else if pathJoin "labels" f.filename = jsonPath then f.records
      else use_labels
    match normalizeRecords f.filename 1 use2 with
    | .error e => .error e
    | .ok ns =>
      match processFiles yamlPath jsonPath rest use2 with
      | .error e => .error e
      | .ok ms => .ok (ns ++ ms)

/-- `GithubIssueLabel._load_labels_from_config` (source lines 134-191),
parameterized by the runtime values of `LabelFile.YAML` / `LabelFile.JSON`. -/
def load_labels_from_config (yamlPath jsonPath : String) (dir : List ConfigFile) :
    Except Fatal (List LabelDict) :=
  match select_label_files dir with
  | .error e => .error e
  | .ok files => processFiles yamlPath jsonPath files []

/-- One iteration of the pagination loop in `_fetch_github_labels`
(source lines 104-123), run on fuel: request page `page` with
`per_page = 100`; a `none` response models a non-200 status (fatal), an
empty page ends the loop, a non-empty page is accumulated. -/
def fetchPages (server : Nat → Option (List ApiLabel)) :
    Nat → Nat → List Req × Except Fatal (List ApiLabel)
  | 0, _ => ([], .error .fuelExhausted)
  | fuel + 1, page =>
    match server page with
    | none => ([Req.list page 100], .error (.fetchFailed page))
    | some [] => ([Req.list page 100], .ok [])
    | some (x :: xs) =>
      let (rs, res) := fetchPages server fuel (page + 1)
      (Req.list page 100 :: rs, res.map (fun tail => (x :: xs) ++ tail))

/-- `GithubIssueLabel._fetch_github_labels` (source lines 98-132):
paginate from page 1, then reduce every fetched label to
`{name, color, description}`. -/
def fetch_github_labels (server : Nat → Option (List ApiLabel)) (fuel : Nat) :
    List Req × Except Fatal (List GhLabel) :=
  let (rs, res) := fetchPages server fuel 1
  (rs, res.map (List.map reduceApiLabel))

/-- The hardcoded `DEFAULT_LABEL_NAMES` of `delete_default_labels`
(source lines 207-219). -/
def DEFAULT_LABEL_NAMES : List String :=
  ["bug", "dependencies", "documentation", "duplicate", "enhancement",
   "github_actions", "help wanted", "invalid", "python", "question", "wontfix"]

/-- The loop of `delete_default_labels` (source lines 221-235): one delete
request per default name present in `github_label_names`; the response is
only logged. -/
def deleteLoop (github_label_names : List String) : List String → List Req
  | [] => []
  | n :: rest =>
    if n ∈ github_label_names then Req.delete n :: deleteLoop github_label_names rest
    else deleteLoop github_label_names rest

/-- `GithubIssueLabel.delete_default_labels` (source lines 206-235) as the
trace of delete requests it issues.  Note it takes only the remote name
snapshot: the desired label set plays no role in this phase. -/
def delete_default_labels (github_label_names : List String) : List Req :=
  deleteLoop github_label_names DEFAULT_LABEL_NAMES

/-- `GithubIssueLabel._update_label` (source lines 193-204): the request
URL is keyed by `label['name']`; then `label["new_name"] = label.pop("name")`
mutates the dict in place, and the mutated dict is the PATCH body.
Returns the request and the mutated dict; `none` models the `KeyError`
raised when the dict has no `name` key. -/
def update_label (label : LabelDict) : Option (Req × LabelDict) := do
  let n ← dget label .name
  let (nv, label1) ← dpop label .name
  let label2 := dset label1 .new_name nv
  return (Req.update n label2, label2)

/-- The body of the `for label in self.labels` loop of `create_labels`
(source lines 238-260): if `label["name"]` occurs in the remote name
snapshot, compare color then description against the remote entry at the
first matching index and update on a difference, else no-op; if it does
not occur, create.  Returns the requests issued for this label and the
(possibly mutated) dict; `none` models a `KeyError`/`IndexError` crash. -/
def labelStep (gls : List GhLabel) (label : LabelDict) : Option (List Req × LabelDict) :=
  let names := gls.map (·.name)
  match dget label .name with
  | none => none
  | some n =>
    if n ∈ names then
      match gls[names.indexOf n]? with
      | none => none
      | some g =>
        match dget label .color with
        | none => none
        | some c =>
          if c ≠ g.color then
            (update_label label).map (fun p => ([p.1], p.2))
          else
            match dget label .description with
            | none => none
            | some d =>
              if d ≠ g.description then
                (update_label label).map (fun p => ([p.1], p.2))
              else some ([], label)
    else some ([Req.create label], label)

/-- `GithubIssueLabel.create_labels` (source lines 237-260): process every
desired label in order.  Returns the mutation trace, the final state of
the desired list (update mutates entries in place), and whether the run
crashed on a malformed dict (in which case the trace covers the labels
processed before the crash). -/
def create_labels (gls : List GhLabel) : List LabelDict → List Req × List LabelDict × Bool
  | [] => ([], [], false)
  | l :: rest =>
    match labelStep gls l with
    | none => ([], l :: rest, true)
    | some (reqs, l2) =>
      let (t, ls2, c) := create_labels gls rest
      (reqs ++ t, l2 :: ls2, c)

/-- The remote entry `create_labels` compares a desired label named `n`
against: the element of the snapshot at the first index whose name is `n`
(source lines 240-244). -/
def findRemote (gls : List GhLabel) (n : String) : Option GhLabel :=
  gls[(gls.map (·.name)).indexOf n]?

/-- The mutation requests of one full run on given snapshots: the deletion
phase (`delete_default_labels`) followed by the create/update phase
(`create_labels`), both reading the same startup remote snapshot
(source lines 263-267). -/
def mutationTrace (gls : List GhLabel) (ls : List LabelDict) : List Req :=
  delete_default_labels (gls.map (·.name)) ++ (create_labels gls ls).1

/-- `main` (source lines 263-267) together with `GithubIssueLabel.__init__`
(source lines 62-76): fetch the remote snapshot, derive the name list,
load the config, then run the deletion phase and the create/update phase.
Returns all requests issued (in order) and the fatal condition, if any. -/
def mainRun (server : Nat → Option (List ApiLabel)) (fuel : Nat)
    (dir : List ConfigFile) (yamlPath jsonPath : String) : List Req × Option Fatal :=
  match fetch_github_labels server fuel with
  | (rs, .error e) => (rs, some e)
  | (rs, .ok gls) =>
    match load_labels_from_config yamlPath jsonPath dir with
    | .error e => (rs, some e)
    | .ok ls =>
      let delReqs := delete_default_labels (gls.map (·.name))
      let (creqs, _, crashed) := create_labels gls ls
      (rs ++ delReqs ++ creqs, if crashed then some .keyError else none)

/-- The mutated dict `_update_label` leaves behind for a label loaded as
`{name: n, color: c, description: d}`: the `name` key is popped and its
value re-added under `new_name` (source line 195). -/
def updDict (n c d : String) : LabelDict :=
  [(.color, c), (.description, d), (.new_name, n)]

/-- A dict of the exact shape the config loader produces
(source lines 183-189). -/
def wfDict (l : LabelDict) : Prop :=
  ∃ n c d, l = mkLabelDict n c d

/-- The requests `labelStep` issues for one desired label
(empty on a crash). -/
def stepReqs (gls : List GhLabel) (l : LabelDict) : List Req :=
  ((labelStep gls l).map (·.1)).getD []

/-- The state `labelStep` leaves one desired label in. -/
def stepOut (gls : List GhLabel) (l : LabelDict) : LabelDict :=
  ((labelStep gls l).map (·.2)).getD l

/-- Claim C6's selection contract, written from the spec's words: if at
least one non-`_remove` `.yaml` file exists, exactly those files; else if
at least one non-`_remove` `.json` file exists, exactly those; else
`ConfigNotFound`. -/
def select_label_files_spec (dir : List ConfigFile) : Except Fatal (List ConfigFile) :=
  if dir.any (fun f => yamlSel f.filename) then .ok (dir.filter (fun f => yamlSel f.filename))
  else if dir.any (fun f => jsonSel f.filename) then .ok (dir.filter (fun f => jsonSel f.filename))
  else .error .configNotFound

/-- Claim C8's color normalization, written from the spec's words: strip a
leading `'#'` and leave every other character unchanged. -/
def stripLeadingHash (s : String) : String :=
  match s.data with
  | '#' :: rest => ⟨rest⟩
  | _ => s

set_option maxRecDepth 10000

theorem labelStep_mk (gls : List GhLabel) (n c d : String) :
    labelStep gls (mkLabelDict n c d) =
      if n ∈ gls.map (·.name) then
        match gls[(gls.map (·.name)).indexOf n]? with
        | none => none
        | some g =>
          if c ≠ g.color then some ([Req.update n (updDict n c d)], updDict n c d)
          else if d ≠ g.description then some ([Req.update n (updDict n c d)], updDict n c d)
          else some ([], mkLabelDict n c d)
      else some ([Req.create (mkLabelDict n c d)], mkLabelDict n c d) := rfl

theorem findRemote_isSome (gls : List GhLabel) (n : String)
    (h : n ∈ gls.map (·.name)) : ∃ g, findRemote gls n = some g := by
  have hlt : (gls.map (·.name)).indexOf n < (gls.map (·.name)).length :=
    List.indexOf_lt_length.mpr h
  rw [List.length_map] at hlt
  exact ⟨_, List.getElem?_eq_getElem hlt⟩

theorem labelStep_create (gls : List GhLabel) (n c d : String)
    (h : n ∉ gls.map (·.name)) :
    labelStep gls (mkLabelDict n c d) =
      some ([Req.create (mkLabelDict n c d)], mkLabelDict n c d) := by
  rw [labelStep_mk, if_neg h]

theorem labelStep_noop (gls : List GhLabel) (n c d : String) (g : GhLabel)
    (h : n ∈ gls.map (·.name)) (hg : findRemote gls n = some g)
    (hc : g.color = c) (hd : g.description = d) :
    labelStep gls (mkLabelDict n c d) = some ([], mkLabelDict n c d) := by
  rw [labelStep_mk, if_pos h]
  rw [show gls[(gls.map (·.name)).indexOf n]? = some g from hg]
  simp [hc, hd]

theorem labelStep_update (gls : List GhLabel) (n c d : String) (g : GhLabel)
    (h : n ∈ gls.map (·.name)) (hg : findRemote gls n = some g)
    (hdiff : c ≠ g.color ∨ d ≠ g.description) :
    labelStep gls (mkLabelDict n c d) =
      some ([Req.update n (updDict n c d)], updDict n c d) := by
  rw [labelStep_mk, if_pos h]
  rw [show gls[(gls.map (·.name)).indexOf n]? = some g from hg]
  by_cases hc : c = g.color
  · have hd : d ≠ g.description := by
      rcases hdiff with h1 | h1
      · exact absurd hc h1
      · exact h1
    simp [hc, hd]
  · simp [hc]

theorem labelStep_wf_isSome (gls : List GhLabel) (n c d : String) :
    ∃ p, labelStep gls (mkLabelDict n c d) = some p := by
  by_cases hn : n ∈ gls.map (·.name)
  · obtain ⟨g, hg⟩ := findRemote_isSome gls n hn
    by_cases hc : c = g.color
    · by_cases hd : d = g.description
      · exact ⟨_, labelStep_noop gls n c d g hn hg hc.symm hd.symm⟩
      · exact ⟨_, labelStep_update gls n c d g hn hg (Or.inr hd)⟩
    · exact ⟨_, labelStep_update gls n c d g hn hg (Or.inl hc)⟩
  · exact ⟨_, labelStep_create gls n c d hn⟩

/-- On desired lists of the shape the loader produces, the create/update
phase never crashes, its trace is the concatenation of the per-label
traces, and its final desired list is the per-label mapping. -/
theorem create_labels_eq_flat (gls : List GhLabel) (ls : List LabelDict)
    (h : ∀ l ∈ ls, wfDict l) :
    create_labels gls ls =
      ((ls.map (stepReqs gls)).flatten, ls.map (stepOut gls), false) := by
  induction ls with
  | nil => rfl
  | cons l rest ih =>
    obtain ⟨n, c, d, rfl⟩ := h l (List.mem_cons_self l rest)
    obtain ⟨⟨reqs, l2⟩, hs⟩ := labelStep_wf_isSome gls n c d
    have ihr := ih (fun x hx => h x (List.mem_cons_of_mem _ hx))
    simp [create_labels, hs, ihr, stepReqs, stepOut]

theorem deleteLoop_eq (rn : List String) :
    ∀ dl : List String,
      deleteLoop rn dl = (dl.filter (fun n => decide (n ∈ rn))).map Req.delete
  | [] => rfl
  | n :: rest => by
    by_cases h : n ∈ rn <;> simp [deleteLoop, h, deleteLoop_eq rn rest]

theorem delete_injective : Function.Injective Req.delete := by
  intro a b hab
  cases hab
  rfl

theorem deleteTargets (rn : List String) (m : String)
    (h : Req.delete m ∈ delete_default_labels rn) : m ∈ DEFAULT_LABEL_NAMES := by
  rw [delete_default_labels, deleteLoop_eq] at h
  obtain ⟨x, hx, hxm⟩ := List.mem_map.mp h
  cases delete_injective hxm
  exact (List.mem_filter.mp hx).1

theorem filter_isEmpty_eq_not_any (p : ConfigFile → Bool) (l : List ConfigFile) :
    (l.filter p).isEmpty = !l.any p := by
  cases hq : l.any p
  · simp only [Bool.not_false]
    rw [List.isEmpty_iff]
    rw [List.filter_eq_nil_iff]
    intro a ha hpa
    have := List.any_eq_true.mpr ⟨a, ha, hpa⟩
    rw [this] at hq
    cases hq
  · simp only [Bool.not_true]
    obtain ⟨a, ha, hpa⟩ := List.any_eq_true.mp hq
    rw [List.isEmpty_eq_false_iff_exists_mem]
    exact ⟨a, List.mem_filter.mpr ⟨ha, hpa⟩⟩

theorem normalizeRecords_ok (fname : String) :
    ∀ (i : Nat) (rs : List RawRecord), (∀ r ∈ rs, r.name.getD "" ≠ "") →
      normalizeRecords fname i rs = .ok (rs.map normalizeRecord)
  | _, [], _ => rfl
  | i, r :: rs, h => by
    have hr : r.name.getD "" ≠ "" := h r (List.mem_cons_self r rs)
    have ih := normalizeRecords_ok fname (i + 1) rs
      (fun x hx => h x (List.mem_cons_of_mem _ hx))
    simp [normalizeRecords, hr, ih, Except.map]

/-- C1, counterexample: with remote snapshot `[{bug, c1, d1}]` and the
single desired label `{bug, c1, d1}` (same-named remote entry with exactly
matching color and description), the run still issues a mutation request
for that label: `"bug"` is in the hardcoded default list, so the deletion
phase deletes it.  The claim's "no create, no update, no delete for d" is
therefore false as stated. -/
theorem C1_cex :
    findRemote [⟨"bug", "c1", "d1"⟩] "bug" = some ⟨"bug", "c1", "d1"⟩ ∧
    mutationTrace [⟨"bug", "c1", "d1"⟩] [mkLabelDict "bug" "c1" "d1"] =
      [Req.delete "bug"] ∧
    Req.delete "bug" ∈
      mutationTrace [⟨"bug", "c1", "d1"⟩] [mkLabelDict "bug" "c1" "d1"] :=
  ⟨rfl, rfl, by decide⟩

/-- C1 (amended): for a desired label `{n, c, d}` whose name has a remote
match whose first entry by position carries exactly the same color and
description, the create/update phase issues no request at all for that
label (removing it from the desired list leaves the phase's request trace
unchanged), and the deletion phase only ever issues deletes for names in
the fixed default list — so a matching desired label receives zero
mutation requests unless its name is one of the hardcoded defaults. -/
theorem C1_noop_amended (gls : List GhLabel) (pre post : List LabelDict)
    (n c d : String) (g : GhLabel)
    (hwpre : ∀ l ∈ pre, wfDict l) (hwpost : ∀ l ∈ post, wfDict l)
    (hn : n ∈ gls.map (·.name)) (hg : findRemote gls n = some g)
    (hc : g.color = c) (hd : g.description = d) :
    (create_labels gls (pre ++ mkLabelDict n c d :: post)).1 =
      (create_labels gls (pre ++ post)).1 ∧
    (∀ m, Req.delete m ∈ delete_default_labels (gls.map (·.name)) →
      m ∈ DEFAULT_LABEL_NAMES) := by
  have hw1 : ∀ l ∈ pre ++ mkLabelDict n c d :: post, wfDict l := by
    intro l hl
    rcases List.mem_append.mp hl with h1 | h1
    · exact hwpre l h1
    · rcases List.mem_cons.mp h1 with h2 | h2
      · exact ⟨n, c, d, h2⟩
      · exact hwpost l h2
  have hw2 : ∀ l ∈ pre ++ post, wfDict l := by
    intro l hl
    rcases List.mem_append.mp hl with h1 | h1
    · exact hwpre l h1
    · exact hwpost l h1
  constructor
  · rw [create_labels_eq_flat _ _ hw1, create_labels_eq_flat _ _ hw2]
    have hstep : stepReqs gls (mkLabelDict n c d) = [] := by
      simp [stepReqs, labelStep_noop gls n c d g hn hg hc hd]
    simp [hstep]
  · exact fun m => deleteTargets _ m

/-- Witness for C1 (amended) at remote `[{x, c, d}]`, desired `{x, c, d}`. -/
theorem C1_noop_amended_witness :
    ("x" ∈ ([⟨"x", "c", "d"⟩] : List GhLabel).map (·.name) ∧
      findRemote [⟨"x", "c", "d"⟩] "x" = some ⟨"x", "c", "d"⟩) ∧
    (create_labels [⟨"x", "c", "d"⟩] ([] ++ mkLabelDict "x" "c" "d" :: [])).1 =
      (create_labels [⟨"x", "c", "d"⟩] ([] ++ [])).1 :=
  ⟨⟨by decide, rfl⟩,
    (C1_noop_amended [⟨"x", "c", "d"⟩] [] [] "x" "c" "d" ⟨"x", "c", "d"⟩
      (fun l hl => absurd hl (List.not_mem_nil l))
      (fun l hl => absurd hl (List.not_mem_nil l))
      (by decide) rfl rfl rfl).1⟩

/-- C2: a desired label loaded from a raw config record `r` whose name
does not occur anywhere in the remote snapshot yields exactly one create
request, placed at its position in the phase's trace, whose body is
exactly the loaded dict `normalizeRecord r` (name from the record, color
with `'#'` stripped, absent fields defaulted to the empty string); the
labels after it are processed regardless, since mutation responses never
influence control flow. -/
theorem C2_create_exactly_once (gls : List GhLabel) (pre post : List LabelDict)
    (r : RawRecord)
    (hwpre : ∀ l ∈ pre, wfDict l) (hwpost : ∀ l ∈ post, wfDict l)
    (hname : (r.name.getD "") ∉ gls.map (·.name)) :
    (create_labels gls (pre ++ normalizeRecord r :: post)).1 =
      (create_labels gls pre).1 ++
        Req.create (normalizeRecord r) :: (create_labels gls post).1 := by
  have hw1 : ∀ l ∈ pre ++ normalizeRecord r :: post, wfDict l := by
    intro l hl
    rcases List.mem_append.mp hl with h1 | h1
    · exact hwpre l h1
    · rcases List.mem_cons.mp h1 with h2 | h2
      · exact ⟨_, _, _, h2⟩
      · exact hwpost l h2
  rw [create_labels_eq_flat _ _ hw1, create_labels_eq_flat _ _ hwpre,
    create_labels_eq_flat _ _ hwpost]
  have hstep : stepReqs gls (normalizeRecord r) = [Req.create (normalizeRecord r)] := by
    simp [stepReqs, normalizeRecord, labelStep_create gls _ _ _ hname]
  simp [hstep]

/-- Witness for C2 at an empty remote snapshot and the record
`{name: n, color: "#f"}`. -/
theorem C2_create_exactly_once_witness :
    ((⟨some "n", some "#f", none⟩ : RawRecord).name.getD "" ∉
      ([] : List GhLabel).map (·.name)) ∧
    (create_labels [] ([] ++ normalizeRecord ⟨some "n", some "#f", none⟩ :: [])).1 =
      (create_labels [] []).1 ++
        Req.create (normalizeRecord ⟨some "n", some "#f", none⟩) ::
          (create_labels [] []).1 :=
  ⟨by decide,
    C2_create_exactly_once [] [] [] ⟨some "n", some "#f", none⟩
      (fun l hl => absurd hl (List.not_mem_nil l))
      (fun l hl => absurd hl (List.not_mem_nil l))
      (by decide)⟩

/-- C3: the deletion phase issues exactly one delete request for every
name of the fixed default list present in the remote name snapshot and
none for any other name.  `delete_default_labels` takes only the remote
name snapshot — the desired label set plays no role in this phase — and
responses are only logged, so processing always continues with the next
default name. -/
theorem C3_delete_defaults (rn : List String) (n : String) :
    (delete_default_labels rn).count (Req.delete n) =
      if n ∈ DEFAULT_LABEL_NAMES ∧ n ∈ rn then 1 else 0 := by
  rw [delete_default_labels, deleteLoop_eq]
  rw [List.count_map_of_injective _ _ delete_injective]
  by_cases hr : n ∈ rn
  · rw [List.count_filter (by simpa using hr)]
    rw [List.count_eq_of_nodup (by decide)]
    simp [hr]
  · have hz : List.count n (DEFAULT_LABEL_NAMES.filter (fun x => decide (x ∈ rn))) = 0 := by
      rw [List.count_eq_zero]
      intro hmem
      exact hr (by simpa using (List.mem_filter.mp hmem).2)
    simp [hr, hz]

/-- C4: the create/update phase compares against the remote snapshot
fetched once at startup, so a desired label `{n, c, d}` whose name is in
the fixed default list and in the snapshot, with differing attributes, is
treated as found remotely: its loop iteration contributes an update
request keyed by `n` (never a create), even though the deletion phase
already deleted that label.  The concrete run in the second conjunct shows
the full request order: both fetch pages first, then `DELETE bug`, then a
`PATCH` of the just-deleted `bug` — with no create request. -/
theorem C4_stale_snapshot_update (gls : List GhLabel) (pre post : List LabelDict)
    (n c d : String) (g : GhLabel)
    (hwpre : ∀ l ∈ pre, wfDict l) (hwpost : ∀ l ∈ post, wfDict l)
    (_hdef : n ∈ DEFAULT_LABEL_NAMES) (hn : n ∈ gls.map (·.name))
    (hg : findRemote gls n = some g) (hdiff : c ≠ g.color ∨ d ≠ g.description) :
    (create_labels gls (pre ++ mkLabelDict n c d :: post)).1 =
      (create_labels gls pre).1 ++
        Req.update n (updDict n c d) :: (create_labels gls post).1 ∧
    mainRun (fun p => if p = 1 then some [⟨1, "nid", "bug", "ededed", "x"⟩] else some []) 2
        [⟨"labels.yaml", [⟨some "bug", some "#fc2929", some "x"⟩]⟩]
        "labels/labels.yaml" "labels/labels.json" =
      ([Req.list 1 100, Req.list 2 100, Req.delete "bug",
        Req.update "bug" (updDict "bug" "fc2929" "x")], none) := by
  constructor
  · have hw1 : ∀ l ∈ pre ++ mkLabelDict n c d :: post, wfDict l := by
      intro l hl
      rcases List.mem_append.mp hl with h1 | h1
      · exact hwpre l h1
      · rcases List.mem_cons.mp h1 with h2 | h2
        · exact ⟨n, c, d, h2⟩
        · exact hwpost l h2
    rw [create_labels_eq_flat _ _ hw1, create_labels_eq_flat _ _ hwpre,
      create_labels_eq_flat _ _ hwpost]
    have hstep : stepReqs gls (mkLabelDict n c d) = [Req.update n (updDict n c d)] := by
      simp [stepReqs, labelStep_update gls n c d g hn hg hdiff]
    simp [hstep]
  · rfl

/-- Witness for C4 at remote `[{bug, ededed, x}]` and desired
`{bug, fc2929, x}`. -/
theorem C4_stale_snapshot_update_witness :
    ("bug" ∈ DEFAULT_LABEL_NAMES ∧
      "bug" ∈ ([⟨"bug", "ededed", "x"⟩] : List GhLabel).map (·.name) ∧
      findRemote [⟨"bug", "ededed", "x"⟩] "bug" = some ⟨"bug", "ededed", "x"⟩ ∧
      ("fc2929" : String) ≠ "ededed") ∧
    (create_labels [⟨"bug", "ededed", "x"⟩] ([] ++ mkLabelDict "bug" "fc2929" "x" :: [])).1 =
      (create_labels [⟨"bug", "ededed", "x"⟩] []).1 ++
        Req.update "bug" (updDict "bug" "fc2929" "x") ::
          (create_labels [⟨"bug", "ededed", "x"⟩] []).1 :=
  ⟨⟨by decide, by decide, rfl, by decide⟩,
    (C4_stale_snapshot_update [⟨"bug", "ededed", "x"⟩] [] [] "bug" "fc2929" "x"
      ⟨"bug", "ededed", "x"⟩
      (fun l hl => absurd hl (List.not_mem_nil l))
      (fun l hl => absurd hl (List.not_mem_nil l))
      (by decide) (by decide) rfl (Or.inl (by decide))).1⟩

/-- C5 (code bug): with two selected YAML files — the canonical
`labels.yaml` holding the record `{one, #aa, d1}` and `zz.yaml` holding
`{two, #bb, d2}` — the loader returns the first file's record twice and
the second file's record never.  The loop only assigns the parsed records
to `use_labels` when the joined path `labels/<filename>` equals the
`LabelFile.YAML` / `LabelFile.JSON` constant (instantiated here with the
most charitable value `labels/labels.yaml`); for `zz.yaml` the comparison
fails, so the stale `use_labels` of the previous iteration is validated
and appended again.  The claimed concatenation would be
`[{one, aa, d1}, {two, bb, d2}]`. -/
theorem C5_stale_reuse_eval :
    select_label_files
        [⟨"labels.yaml", [⟨some "one", some "#aa", some "d1"⟩]⟩,
         ⟨"zz.yaml", [⟨some "two", some "#bb", some "d2"⟩]⟩] =
      .ok [⟨"labels.yaml", [⟨some "one", some "#aa", some "d1"⟩]⟩,
           ⟨"zz.yaml", [⟨some "two", some "#bb", some "d2"⟩]⟩] ∧
    load_labels_from_config "labels/labels.yaml" "labels/labels.json"
        [⟨"labels.yaml", [⟨some "one", some "#aa", some "d1"⟩]⟩,
         ⟨"zz.yaml", [⟨some "two", some "#bb", some "d2"⟩]⟩] =
      .ok [mkLabelDict "one" "aa" "d1", mkLabelDict "one" "aa" "d1"] ∧
    mkLabelDict "one" "aa" "d1" ≠ mkLabelDict "two" "bb" "d2" :=
  ⟨rfl, rfl, by decide⟩

/-- C6: the source's config selection agrees with the spec's contract
(all non-`_remove` `.yaml` files if any exist, else all non-`_remove`
`.json` files, else `ConfigNotFound`), and when selection fails the
loader returns the fatal error, loading no labels. -/
theorem C6_config_selection (dir : List ConfigFile) :
    select_label_files dir = select_label_files_spec dir ∧
    (∀ yp jp, select_label_files dir = .error .configNotFound →
      load_labels_from_config yp jp dir = .error .configNotFound) := by
  constructor
  · rw [select_label_files, select_label_files_spec]
    rw [filter_isEmpty_eq_not_any, filter_isEmpty_eq_not_any]
    cases hy : dir.any (fun f => yamlSel f.filename) <;>
      cases hj : dir.any (fun f => jsonSel f.filename) <;> simp
  · intro yp jp h
    rw [load_labels_from_config, h]

/-- Witness for C6 at the empty directory listing. -/
theorem C6_config_selection_witness :
    select_label_files [] = select_label_files_spec [] ∧
    load_labels_from_config "a" "b" [] = .error .configNotFound :=
  ⟨(C6_config_selection []).1, (C6_config_selection []).2 "a" "b" rfl⟩

/-- C7 (code bug): a selected config file `aa.yaml` whose only record
`{color: "#fff", description: "x"}` has no name does not abort the run.
Because `labels/aa.yaml` differs from the `LabelFile.YAML` constant
(instantiated with the most charitable value `labels/labels.yaml`), the
file is never parsed into `use_labels`, the validation loop runs over the
empty stale list, the loader returns zero labels, and the run proceeds to
issue a delete mutation and completes without any fatal error —
contradicting the claimed fatal `InvalidLabelEntry` abort before any
mutation. -/
theorem C7_no_abort_eval :
    load_labels_from_config "labels/labels.yaml" "labels/labels.json"
        [⟨"aa.yaml", [⟨none, some "#fff", some "x"⟩]⟩] = .ok [] ∧
    mainRun (fun p => if p = 1 then some [⟨1, "nid", "bug", "c0", "d0"⟩] else some []) 2
        [⟨"aa.yaml", [⟨none, some "#fff", some "x"⟩]⟩]
        "labels/labels.yaml" "labels/labels.json" =
      ([Req.list 1 100, Req.list 2 100, Req.delete "bug"], none) :=
  ⟨rfl, rfl⟩

/-- C8, counterexample: the record `{name: n, color: "a#b"}` in the
canonical config file is stored with color `"ab"`: the source removes
every `'#'` (`str.replace("#", "")`), not just a leading one, so the
stored color differs from the claim's leading-stripped `"a#b"`. -/
theorem C8_cex :
    load_labels_from_config "labels/labels.yaml" "labels/labels.json"
        [⟨"labels.yaml", [⟨some "n", some "a#b", none⟩]⟩] =
      .ok [mkLabelDict "n" "ab" ""] ∧
    stripLeadingHash "a#b" = "a#b" ∧
    dget (mkLabelDict "n" "ab" "") .color ≠ some (stripLeadingHash "a#b") :=
  ⟨rfl, rfl, by decide⟩

/-- C8 (amended): every loaded label record stores the raw config color
with ALL `'#'` characters removed (not only a leading one) and the other
characters unchanged in order, and a record with no color or no
description stores the empty string for that field; the canonical config
file with valid names loads to exactly its records so normalized. -/
theorem C8_color_normalization_amended (records : List RawRecord)
    (h : ∀ r ∈ records, r.name.getD "" ≠ "") :
    load_labels_from_config "labels/labels.yaml" "labels/labels.json"
        [⟨"labels.yaml", records⟩] = .ok (records.map normalizeRecord) ∧
    ∀ r : RawRecord,
      dget (normalizeRecord r) .color =
        some ⟨(r.color.getD "").data.filter (fun ch => ch ≠ '#')⟩ ∧
      dget (normalizeRecord r) .description = some (r.description.getD "") ∧
      dget (normalizeRecord r) .name = some (r.name.getD "") := by
  constructor
  · have hsel : select_label_files [⟨"labels.yaml", records⟩] =
        .ok [⟨"labels.yaml", records⟩] := rfl
    rw [load_labels_from_config, hsel]
    show (match normalizeRecords "labels.yaml" 1 records with
      | Except.error e => Except.error e
      | Except.ok ns =>
        match (Except.ok [] : Except Fatal (List LabelDict)) with
        | Except.error e => Except.error e
        | Except.ok ms => Except.ok (ns ++ ms)) = _
    rw [normalizeRecords_ok "labels.yaml" 1 records h]
    simp
  · intro r
    exact ⟨rfl, rfl, rfl⟩

/-- Witness for C8 (amended) at the single record `{name: n, color: "#ff0000"}`. -/
theorem C8_color_normalization_amended_witness :
    (⟨some "n", some "#ff0000", none⟩ : RawRecord).name.getD "" ≠ "" ∧
    load_labels_from_config "labels/labels.yaml" "labels/labels.json"
        [⟨"labels.yaml", [⟨some "n", some "#ff0000", none⟩]⟩] =
      .ok ([(⟨some "n", some "#ff0000", none⟩ : RawRecord)].map normalizeRecord) :=
  ⟨by decide,
    (C8_color_normalization_amended [⟨some "n", some "#ff0000", none⟩]
      (fun r hr => List.mem_singleton.mp hr ▸ (by decide))).1⟩

/-- C9, counterexample: with remote snapshot `[{a, c1, d1}]` and the
desired entry `{name: a, color: c2, description: d1}`, the update the run
issues mutates the desired entry in place: after the run the entry is
`{color: c2, description: d1, new_name: a}` — its `name` key is gone, so
it no longer maps `name` to its original value, refuting the claimed
read-only snapshot. -/
theorem C9_cex :
    create_labels [⟨"a", "c1", "d1"⟩] [mkLabelDict "a" "c2" "d1"] =
      ([Req.update "a" (updDict "a" "c2" "d1")], [updDict "a" "c2" "d1"], false) ∧
    dget (mkLabelDict "a" "c2" "d1") .name = some "a" ∧
    dget (updDict "a" "c2" "d1") .name = none :=
  ⟨rfl, rfl, rfl⟩

/-- C9 (amended): the remote snapshot is never written after construction,
and the final desired list is the per-entry image of the startup desired
list in order: entries whose name has no remote match (create case) and
entries whose first remote match carries equal color and description
(no-op case) are left exactly as loaded; an entry that triggers an update
request is mutated in place — its `name` key is popped and re-added as
`new_name` with the original name value, color and description unchanged. -/
theorem C9_snapshot_amended (gls : List GhLabel) (ls : List LabelDict)
    (h : ∀ l ∈ ls, wfDict l) :
    (create_labels gls ls).2.1 = ls.map (stepOut gls) ∧
    (∀ n c d, n ∉ gls.map (·.name) →
      stepOut gls (mkLabelDict n c d) = mkLabelDict n c d) ∧
    (∀ n c d g, n ∈ gls.map (·.name) → findRemote gls n = some g →
      g.color = c → g.description = d →
      stepOut gls (mkLabelDict n c d) = mkLabelDict n c d) ∧
    (∀ n c d g, n ∈ gls.map (·.name) → findRemote gls n = some g →
      (c ≠ g.color ∨ d ≠ g.description) →
      stepOut gls (mkLabelDict n c d) = updDict n c d ∧
      dget (updDict n c d) .name = none ∧
      dget (updDict n c d) .new_name = some n ∧
      dget (updDict n c d) .color = some c ∧
      dget (updDict n c d) .description = some d) := by
  refine ⟨?_, ?_, ?_, ?_⟩
  · rw [create_labels_eq_flat _ _ h]
  · intro n c d hn
    simp [stepOut, labelStep_create gls n c d hn]
  · intro n c d g hn hg hc hd
    simp [stepOut, labelStep_noop gls n c d g hn hg hc hd]
  · intro n c d g hn hg hdiff
    refine ⟨?_, rfl, rfl, rfl, rfl⟩
    simp [stepOut, labelStep_update gls n c d g hn hg hdiff]

/-- Witness for C9 (amended) at an empty remote snapshot and one loaded
desired label. -/
theorem C9_snapshot_amended_witness :
    wfDict (mkLabelDict "n" "c" "d") ∧
    (create_labels [] [mkLabelDict "n" "c" "d"]).2.1 =
      [mkLabelDict "n" "c" "d"].map (stepOut []) :=
  ⟨⟨"n", "c", "d", rfl⟩,
    (C9_snapshot_amended [] [mkLabelDict "n" "c" "d"]
      (fun _ hl => List.mem_singleton.mp hl ▸ ⟨"n", "c", "d", rfl⟩)).1⟩

/-- C10: the remote listing requests pages of size 100 from page 1 and
stops at the first empty page, concatenating the pages in order and
reducing each label to `{name, color, description}`: a remote with two
full pages of 100 followed by an empty page yields exactly the three list
requests for pages 1, 2, 3 and exactly 200 loaded labels (first page's
labels before the second page's, extra fields dropped); and a page
answering with a non-200 status (page 2 of the second server) aborts the
whole run fatally with only the list requests issued. -/
theorem C10_pagination :
    fetch_github_labels
        (fun p => if p = 1 then some (List.replicate 100 ⟨1, "i1", "n1", "c1", "d1"⟩)
          else if p = 2 then some (List.replicate 100 ⟨2, "i2", "n2", "c2", "d2"⟩)
          else some []) 3 =
      ([Req.list 1 100, Req.list 2 100, Req.list 3 100],
        .ok (List.replicate 100 ⟨"n1", "c1", "d1"⟩ ++
          List.replicate 100 ⟨"n2", "c2", "d2"⟩)) ∧
    (List.replicate 100 (⟨"n1", "c1", "d1"⟩ : GhLabel) ++
      List.replicate 100 (⟨"n2", "c2", "d2"⟩ : GhLabel)).length = 200 ∧
    fetch_github_labels
        (fun p => if p = 1 then some [⟨1, "i1", "n1", "c1", "d1"⟩] else none) 3 =
      ([Req.list 1 100, Req.list 2 100], .error (.fetchFailed 2)) ∧
    mainRun (fun p => if p = 1 then some [⟨1, "i1", "n1", "c1", "d1"⟩] else none) 3 []
        "labels/labels.yaml" "labels/labels.json" =
      ([Req.list 1 100, Req.list 2 100], some (.fetchFailed 2)) :=
  ⟨rfl, rfl, rfl, rfl⟩
